import Mathlib

/-!
Verification of the beforeiplay scraper pipeline (`beforeiplay_scraper.py`).

The Python source is shallowly embedded: strings are Lean `String`s (lists of
code points, matching Python's `len`/indexing on `str`), the filesystem is an
explicit state value, and the network / HTML-conversion capabilities are
parameters (a `World`).  Each definition carries a reference to the source
lines it embeds.
-/

set_option autoImplicit false

namespace Scraper

/-- Characters removed by `re.sub(r'[<>:"/\\|?*]', '', name)`
(`sanitize_filename`, line 67). -/
def isInvalidChar (c : Char) : Bool :=
  c == '<' || c == '>' || c == ':' || c == '"' || c == '/' ||
  c == '\\' || c == '|' || c == '?' || c == '*'

/-- Step 1 of `sanitize_filename` (line 67): drop the invalid characters. -/
def removeInvalid (l : List Char) : List Char :=
  l.filter (fun c => !(isInvalidChar c))

/-- Step 2 of `sanitize_filename` (line 69): `re.sub(r'\.\.', '_', name)`.
`re.sub` scans left to right and replaces each non-overlapping occurrence of
two consecutive periods by a single `'_'`, resuming the scan after the
replaced pair. -/
def dotsub : List Char → List Char
  | [] => []
  | [c] => [c]
  | c :: d :: rest =>
    if c = '.' ∧ d = '.' then '_' :: dotsub rest
    else c :: dotsub (d :: rest)

/-- `str.strip(chars)` on a list of code points: remove leading and trailing
characters belonging to `set` (used for line 71, `name.strip('. ')`). -/
def stripChars (set : List Char) (l : List Char) : List Char :=
  ((l.dropWhile (fun c => set.contains c)).reverse.dropWhile
    (fun c => set.contains c)).reverse

/-- `name.rsplit(' ', 1)[0]`: everything before the last space, or the whole
list when there is no space (`sanitize_filename`, line 77). -/
def cutAtLastSpace (l : List Char) : List Char :=
  match l.reverse.dropWhile (fun c => c ≠ ' ') with
  | [] => l
  | _ :: rest => rest.reverse

/-- Step 4 of `sanitize_filename` (lines 75-77): when the name exceeds 100
code points, keep the first 100 and prefer cutting at the last space. -/
def truncateName (l : List Char) : List Char :=
  if 100 < l.length then cutAtLastSpace (l.take 100) else l

/-- The four transformation steps of `sanitize_filename` (lines 67-77),
applied to the code points of a non-empty input. -/
def sanitizeCore (l : List Char) : List Char :=
  truncateName (stripChars ['.', ' '] (dotsub (removeInvalid l)))

/-- `sanitize_filename` (lines 62-81).  The Python parameter may be `None`
or a string; `if not name` is true exactly for `None` and `""`. -/
def sanitize_filename : Option String → String
  | none => "_unknown_game_"
  | some s =>
    if s = "" then "_unknown_game_"
    else
      let cleaned := sanitizeCore s.data
      if cleaned = [] then "_sanitized_empty_" else String.mk cleaned

/-- One catalog entry, as produced by `get_game_links` (lines 44-49).  The
materializer reads the title with `game_info.get("title", "Unknown Title")`
(line 90), so the title is modelled as optional. -/
structure GameInfo where
  url : String
  title : Option String
deriving DecidableEq, Repr

/-- A fetched page, abstracted at the capability boundary drawn by the spec:
`title_element` is the text of `//h1[@id="firstHeading"]/span` when present
(line 126); `content_element` is the serialized HTML of the content region
found by the selectors of lines 140-142, `none` when neither matches. -/
structure Page where
  title_element : Option String
  content_element : Option String

/-- The external capabilities of one run: the page-fetch transport
(`fetch_html`, `None` on failure), the markup-to-markdown conversion
(`markdownify`), and the outcome of the file write: `writeOk = false` means
the write of line 154-155 raises after leaving `failWrite content` on disk,
after which removal (line 161) succeeds exactly when `removeOk = true`. -/
structure World where
  fetch : String → Option Page
  markdownify : String → String
  writeOk : Bool
  failWrite : String → String
  removeOk : Bool

/-- Filesystem state: the set of directories and of (path, content) files. -/
structure FS where
  dirs : List String
  files : List (String × String)

/-- `os.path.exists` on a file path (line 114). -/
def FS.existsFile (fs : FS) (p : String) : Bool :=
  fs.files.any (fun pr => pr.1 == p)

/-- Result of `save_game_page_as_markdown` plus its effects: the returned
`(success, request_made)` pair, the new filesystem, and how many page
fetches were performed during the call. -/
structure MatOutcome where
  success : Bool
  requestMade : Bool
  fs : FS
  fetchCount : Nat

/-- Python `str.strip()` (no argument): strip ASCII whitespace, as applied
to the page title at line 127. -/
def pyStrip (s : String) : String :=
  String.mk (stripChars [' ', '\t', '\n', '\r', '\x0b', '\x0c'] s.data)

/-- `f".md"` file name for an entry (line 108): the sanitized catalog
title plus the extension. -/
def filename_safe_title_of (title : Option String) : String :=
  sanitize_filename (some (title.getD "Unknown Title"))

/-- The bucket subdirectory computed inside `save_game_page_as_markdown`
(lines 99-105): first character of the sanitized title, uppercased; digits
map to `"0-9"`, `'A'..'Z'` to that letter, anything else to `"_"`. -/
def materialize_target_subdir (title : Option String) : String :=
  let filename_safe_title := filename_safe_title_of title
  let first_char := match filename_safe_title.data with
    | [] => '_'
    | c :: _ => c.toUpper
  if '0' ≤ first_char ∧ first_char ≤ '9' then "0-9"
  else if 'A' ≤ first_char ∧ first_char ≤ 'Z' then String.singleton first_char
  else "_"

/-- `output_dir = os.path.join(base_dir, target_subdir)` (line 107). -/
def output_dir_of (base_dir : String) (title : Option String) : String :=
  base_dir ++ "/" ++ materialize_target_subdir title

/-- `output_filepath` (line 108): the destination of an entry, a function of
the output root and the catalog title only. -/
def output_filepath_of (base_dir : String) (title : Option String) : String :=
  output_dir_of base_dir title ++ "/" ++ filename_safe_title_of title ++ ".md"

/-- The markdown document written for a fetched page (lines 126-150):
convert the content region when one was found, otherwise synthesize the
placeholder document from the discovered page title. -/
def markdown_content_of (w : World) (original_title : String) (page : Page) :
    String :=
  let page_title := match page.title_element with
    | some t => pyStrip t
    | none => original_title
  match page.content_element with
  | some chtml => w.markdownify chtml
  | none => "# " ++ page_title ++ "\n\nContent could not be extracted."

/-- `save_game_page_as_markdown` (lines 83-167): compute the destination
from the catalog title, create the bucket directory, short-circuit when the
destination file exists, otherwise fetch, convert, and write; on a failed
write, attempt a best-effort `os.remove` of the just-created file. -/
def save_game_page_as_markdown (w : World) (game_info : GameInfo)
    (base_dir : String) (fs : FS) : MatOutcome :=
  let original_title := game_info.title.getD "Unknown Title"
  let output_filepath := output_filepath_of base_dir game_info.title
  let fs1 : FS := ⟨output_dir_of base_dir game_info.title :: fs.dirs, fs.files⟩
  if fs1.existsFile output_filepath then
    ⟨true, false, fs1, 0⟩
  else
    match w.fetch game_info.url with
    | none => ⟨false, true, fs1, 1⟩
    | some page =>
      let markdown_content := markdown_content_of w original_title page
      if w.writeOk then
        ⟨true, true, ⟨fs1.dirs, (output_filepath, markdown_content) :: fs1.files⟩, 1⟩
      else
        let fs2 : FS :=
          ⟨fs1.dirs, (output_filepath, w.failWrite markdown_content) :: fs1.files⟩
        let fs3 : FS :=
          if w.removeOk then
            ⟨fs2.dirs, fs2.files.eraseP (fun pr => pr.1 == output_filepath)⟩
          else fs2
        ⟨false, true, fs3, 1⟩

/-- The per-title body of the letter-filter loop in `main` (lines 208-220):
`none` models the `continue` that skips a title whose sanitized form is
empty; otherwise the bucket category computed at filter time. -/
def main_filter_category (title : Option String) : Option String :=
  let filename_safe_title := filename_safe_title_of title
  if filename_safe_title = "" then none
  else
    let first_char := match filename_safe_title.data with
      | [] => '_'
      | c :: _ => c.toUpper
    if '0' ≤ first_char ∧ first_char ≤ '9' then some "0-9"
    else if 'A' ≤ first_char ∧ first_char ≤ 'Z' then
      some (String.singleton first_char)
    else some "_"

/-- Accumulated state of the processing loop of `main` (lines 242-262):
the two tallies, the list of indices `i` after which `time.sleep` was
invoked, the total number of page fetches, and the filesystem. -/
structure RunState where
  processed_count : Nat
  error_count : Nat
  sleep_after : List Nat
  fetchCount : Nat
  fs : FS

/-- The `for i, game_info in enumerate(game_links_to_process)` loop of
`main` (lines 248-262): materialize each entry, update the tallies, and
sleep only when a request was made and the entry is not the last
(`request_made and (i < total_games - 1)`, line 257). -/
def mainLoop (w : World) (base_dir : String) (total_games : Nat) :
    Nat → List GameInfo → RunState → RunState
  | _, [], st => st
  | i, game_info :: rest, st =>
    let o := save_game_page_as_markdown w game_info base_dir st.fs
    let st1 : RunState :=
      { processed_count :=
          if o.success then st.processed_count + 1 else st.processed_count
        error_count :=
          if o.success then st.error_count else st.error_count + 1
        sleep_after :=
          if o.requestMade ∧ i < total_games - 1 then st.sleep_after ++ [i]
          else st.sleep_after
        fetchCount := st.fetchCount + o.fetchCount
        fs := o.fs }
    mainLoop w base_dir total_games (i + 1) rest st1

/-!  ## Concrete worlds, entries and filesystems for concrete runs  -/

/-- A concrete fetched page. -/
def helloPage : Page := ⟨some "Title", some "<p>Hello</p>"⟩

/-- A world whose page fetch always fails. -/
def fetchFailWorld : World := ⟨fun _ => none, fun s => s, true, fun s => s, true⟩

/-- A world where fetching and writing always succeed. -/
def okWorld : World := ⟨fun _ => some helloPage, fun s => s, true, fun s => s, true⟩

/-- A world where the file write fails and the cleanup removal succeeds. -/
def writeFailWorld : World :=
  ⟨fun _ => some helloPage, fun s => s, false, fun s => s, true⟩

/-- A world where the file write fails and the cleanup removal also fails. -/
def writeFailNoRemoveWorld : World :=
  ⟨fun _ => some helloPage, fun s => s, false, fun s => s, false⟩

def gAlpha : GameInfo := ⟨"https://x/A", some "Alpha"⟩

def gBeta : GameInfo := ⟨"https://x/B", some "Beta"⟩

def gGamma : GameInfo := ⟨"https://x/G", some "Gamma"⟩

/-- An empty output tree. -/
def emptyFS : FS := ⟨[], []⟩

/-- An output tree already holding the destination file of `gBeta`. -/
def betaFS : FS := ⟨[], [("out/B/Beta.md", "existing")]⟩

/-!  ## Lemmas about the sanitizer  -/

/-- A list of characters contains two consecutive periods somewhere. -/
def hasDoubleDot : List Char → Bool
  | [] => false
  | [_] => false
  | c :: d :: rest => (c == '.' && d == '.') || hasDoubleDot (d :: rest)

theorem hasDoubleDot_of_cons {c : Char} {l : List Char}
    (h : hasDoubleDot (c :: l) = false) : hasDoubleDot l = false := by
  cases l with
  | nil => rfl
  | cons d rest =>
    simp only [hasDoubleDot, Bool.or_eq_false_iff] at h
    exact h.2

theorem hasDoubleDot_append_right : ∀ (m t : List Char),
    hasDoubleDot (m ++ t) = false → hasDoubleDot m = false
  | [], _, _ => rfl
  | [_], _, _ => rfl
  | c :: d :: rest, t, h => by
    simp only [List.cons_append, hasDoubleDot, Bool.or_eq_false_iff] at h ⊢
    exact ⟨h.1, hasDoubleDot_append_right (d :: rest) t h.2⟩

theorem hasDoubleDot_append_left : ∀ (s m : List Char),
    hasDoubleDot (s ++ m) = false → hasDoubleDot m = false
  | [], _, h => h
  | _ :: s', m, h => hasDoubleDot_append_left s' m (hasDoubleDot_of_cons h)

theorem dotsub_head_ne_dot (d : Char) (rest : List Char) (hd : d ≠ '.') :
    ∃ x, dotsub (d :: rest) = d :: x := by
  cases rest with
  | nil => exact ⟨[], rfl⟩
  | cons e r =>
    refine ⟨dotsub (e :: r), ?_⟩
    rw [dotsub, if_neg (fun hcon => hd hcon.1)]

/-- The output of the `'..'` substitution never contains two consecutive
periods. -/
theorem dotsub_no_double : ∀ l : List Char, hasDoubleDot (dotsub l) = false
  | [] => rfl
  | [_] => rfl
  | c :: d :: rest => by
    by_cases h : c = '.' ∧ d = '.'
    · rw [dotsub, if_pos h]
      have ih := dotsub_no_double rest
      cases he : dotsub rest with
      | nil => rfl
      | cons e x =>
        rw [he] at ih
        simp [hasDoubleDot, ih]
    · rw [dotsub, if_neg h]
      have ih := dotsub_no_double (d :: rest)
      by_cases hc : c = '.'
      · have hd : d ≠ '.' := fun hdd => h ⟨hc, hdd⟩
        obtain ⟨x, hx⟩ := dotsub_head_ne_dot d rest hd
        rw [hx] at ih ⊢
        simp [hasDoubleDot, hd, ih]
      · cases he : dotsub (d :: rest) with
        | nil => rfl
        | cons e x =>
          rw [he] at ih
          simp [hasDoubleDot, hc, ih]

/-- Every character of `dotsub l` is the filler `'_'` or a character of `l`. -/
theorem mem_dotsub : ∀ (l : List Char) (c : Char), c ∈ dotsub l → c = '_' ∨ c ∈ l
  | [], c, h => absurd h (List.not_mem_nil c)
  | [_], _, h => Or.inr h
  | a :: d :: rest, c, h => by
    by_cases hp : a = '.' ∧ d = '.'
    · rw [dotsub, if_pos hp] at h
      rcases List.mem_cons.mp h with h1 | h2
      · exact Or.inl h1
      · rcases mem_dotsub rest c h2 with h3 | h4
        · exact Or.inl h3
        · exact Or.inr (by simp [h4])
    · rw [dotsub, if_neg hp] at h
      rcases List.mem_cons.mp h with h1 | h2
      · exact Or.inr (by simp [h1])
      · rcases mem_dotsub (d :: rest) c h2 with h3 | h4
        · exact Or.inl h3
        · exact Or.inr (List.mem_cons_of_mem a h4)

/-- `str.strip(chars)` keeps a contiguous middle part of its input. -/
theorem stripChars_decomp (set : List Char) (l : List Char) :
    ∃ s t, l = s ++ stripChars set l ++ t := by
  refine ⟨l.takeWhile (fun c => set.contains c),
    ((l.dropWhile (fun c => set.contains c)).reverse.takeWhile
      (fun c => set.contains c)).reverse, ?_⟩
  unfold stripChars
  conv_lhs => rw [← List.takeWhile_append_dropWhile (fun c => set.contains c) l]
  rw [List.append_assoc]
  congr 1
  rw [← List.reverse_append, List.takeWhile_append_dropWhile,
    List.reverse_reverse]

theorem cutAtLastSpace_decomp (l : List Char) :
    ∃ t, l = cutAtLastSpace l ++ t := by
  cases hd : l.reverse.dropWhile (fun c => c ≠ ' ') with
  | nil =>
    have hv : cutAtLastSpace l = l := by unfold cutAtLastSpace; rw [hd]
    exact ⟨[], by rw [hv, List.append_nil]⟩
  | cons c rest =>
    have hv : cutAtLastSpace l = rest.reverse := by unfold cutAtLastSpace; rw [hd]
    have h1 : l.reverse.takeWhile (fun x => x ≠ ' ') ++ (c :: rest) = l.reverse := by
      rw [← hd]
      exact List.takeWhile_append_dropWhile _ _
    refine ⟨c :: (l.reverse.takeWhile (fun x => x ≠ ' ')).reverse, ?_⟩
    rw [hv]
    conv_lhs => rw [← List.reverse_reverse l, ← h1]
    simp [List.reverse_append]

theorem truncateName_decomp (l : List Char) : ∃ t, l = truncateName l ++ t := by
  unfold truncateName
  split
  · obtain ⟨t, ht⟩ := cutAtLastSpace_decomp (l.take 100)
    refine ⟨t ++ l.drop 100, ?_⟩
    conv_lhs => rw [← List.take_append_drop 100 l, ht]
    rw [List.append_assoc]
  · exact ⟨[], (List.append_nil l).symm⟩

theorem truncateName_length_le (l : List Char) : (truncateName l).length ≤ 100 := by
  unfold truncateName
  split
  · next h =>
    obtain ⟨t, ht⟩ := cutAtLastSpace_decomp (l.take 100)
    have hlen : (l.take 100).length = 100 := by
      rw [List.length_take]
      exact Nat.min_eq_left (Nat.le_of_lt h)
    have h2 := congrArg List.length ht
    rw [List.length_append, hlen] at h2
    omega
  · next h => omega

/-- The sanitizer core keeps a contiguous middle part of the dot-substitution
output. -/
theorem sanitizeCore_decomp (l : List Char) :
    ∃ s t, dotsub (removeInvalid l) = s ++ sanitizeCore l ++ t := by
  obtain ⟨s1, t1, h1⟩ := stripChars_decomp ['.', ' '] (dotsub (removeInvalid l))
  obtain ⟨t2, h2⟩ :=
    truncateName_decomp (stripChars ['.', ' '] (dotsub (removeInvalid l)))
  refine ⟨s1, t2 ++ t1, ?_⟩
  unfold sanitizeCore
  conv_lhs => rw [h1, h2]
  simp [List.append_assoc]

theorem sanitizeCore_no_double (l : List Char) :
    hasDoubleDot (sanitizeCore l) = false := by
  obtain ⟨s, t, h⟩ := sanitizeCore_decomp l
  have hl := dotsub_no_double (removeInvalid l)
  rw [h, List.append_assoc] at hl
  exact hasDoubleDot_append_right _ t (hasDoubleDot_append_left s _ hl)

theorem mem_sanitizeCore (l : List Char) (c : Char) (h : c ∈ sanitizeCore l) :
    c = '_' ∨ (c ∈ l ∧ isInvalidChar c = false) := by
  obtain ⟨s, t, hdec⟩ := sanitizeCore_decomp l
  have hc : c ∈ dotsub (removeInvalid l) := by
    rw [hdec]
    exact List.mem_append.mpr (Or.inl (List.mem_append.mpr (Or.inr h)))
  rcases mem_dotsub _ c hc with h1 | h2
  · exact Or.inl h1
  · have hm := List.mem_filter.mp h2
    exact Or.inr ⟨hm.1, by simpa using hm.2⟩

theorem sanitizeCore_length_le (l : List Char) : (sanitizeCore l).length ≤ 100 :=
  truncateName_length_le _

/-- The sanitizer never returns the empty string (its final guard replaces
an empty result by the `"_sanitized_empty_"` sentinel). -/
theorem sanitize_filename_ne_empty (t : Option String) :
    sanitize_filename t ≠ "" := by
  match t with
  | none => decide
  | some s =>
    simp only [sanitize_filename]
    split
    · decide
    · split
      · decide
      · next h =>
        intro hcon
        exact h (by simpa using congrArg String.data hcon)

theorem sanitize_filename_length_le (t : Option String) :
    (sanitize_filename t).length ≤ 100 := by
  match t with
  | none => decide
  | some s =>
    simp only [sanitize_filename]
    split
    · decide
    · split
      · decide
      · exact sanitizeCore_length_le s.data

theorem not_sep_of_not_invalid {c : Char} (h : isInvalidChar c = false) :
    (c == '/' || c == '\\') = false := by
  simp only [isInvalidChar, Bool.or_eq_false_iff] at h
  obtain ⟨⟨⟨⟨⟨⟨⟨⟨h1, h2⟩, h3⟩, h4⟩, h5⟩, h6⟩, h7⟩, h8⟩, h9⟩ := h
  simp only [Bool.or_eq_false_iff]
  exact ⟨h5, h6⟩

theorem sanitize_filename_no_separator (t : Option String) :
    (sanitize_filename t).data.any (fun c => c == '/' || c == '\\') = false := by
  match t with
  | none => decide
  | some s =>
    simp only [sanitize_filename]
    split
    · decide
    · split
      · decide
      · rw [List.any_eq_false]
        intro c hc
        rcases mem_sanitizeCore s.data c hc with h1 | ⟨_, h2⟩
        · subst h1; decide
        · simp [not_sep_of_not_invalid h2]

theorem sanitize_filename_no_double_dot (t : Option String) :
    hasDoubleDot (sanitize_filename t).data = false := by
  match t with
  | none => decide
  | some s =>
    simp only [sanitize_filename]
    split
    · decide
    · split
      · decide
      · exact sanitizeCore_no_double s.data

theorem dropWhile_head_not {p : Char → Bool} : ∀ (l : List Char) (c : Char)
    (rest : List Char), l.dropWhile p = c :: rest → p c = false
  | [], _, _, h => by simp [List.dropWhile] at h
  | a :: l', c, rest, h => by
    rw [List.dropWhile_cons] at h
    split at h
    · exact dropWhile_head_not l' c rest h
    · next hpa =>
      cases h
      simpa using hpa

/-- When the first 100 characters hold no space, truncation is a hard cut
at 100 (`rsplit` finds nothing to split on). -/
theorem truncateName_hard_cut (l : List Char) (h1 : 100 < l.length)
    (h2 : ' ' ∉ l.take 100) : truncateName l = l.take 100 := by
  unfold truncateName
  rw [if_pos h1]
  unfold cutAtLastSpace
  cases hd : (l.take 100).reverse.dropWhile (fun c => c ≠ ' ') with
  | nil => rfl
  | cons c rest =>
    exfalso
    have hc : c = ' ' := by simpa using dropWhile_head_not _ c rest hd
    subst hc
    have hmem : ' ' ∈ (l.take 100).reverse.dropWhile (fun c => c ≠ ' ') := by
      rw [hd]; exact List.mem_cons_self _ _
    have := List.dropWhile_sublist (l := (l.take 100).reverse)
      (p := fun c => c ≠ ' ')
    exact h2 (by simpa using this.mem hmem)

/-- When the first 100 characters do hold a space, truncation cuts exactly
at the last such space. -/
theorem truncateName_cut_at_space (l : List Char) (h1 : 100 < l.length)
    (h2 : ' ' ∈ l.take 100) :
    ∃ rest, l.take 100 = truncateName l ++ ' ' :: rest ∧ ' ' ∉ rest := by
  unfold truncateName
  rw [if_pos h1]
  cases hd : (l.take 100).reverse.dropWhile (fun c => c ≠ ' ') with
  | nil =>
    exfalso
    rw [List.dropWhile_eq_nil_iff] at hd
    have := hd ' ' (by simpa using h2)
    simp at this
  | cons c rest =>
    have hcut : cutAtLastSpace (l.take 100) = rest.reverse := by
      unfold cutAtLastSpace
      rw [hd]
    have hc : c = ' ' := by simpa using dropWhile_head_not _ c rest hd
    subst hc
    have hsplit : (l.take 100).reverse.takeWhile (fun x => x ≠ ' ') ++
        (' ' :: rest) = (l.take 100).reverse := by
      rw [← hd]
      exact List.takeWhile_append_dropWhile _ _
    refine ⟨((l.take 100).reverse.takeWhile (fun x => x ≠ ' ')).reverse, ?_, ?_⟩
    · rw [hcut]
      conv_lhs => rw [← List.reverse_reverse (l.take 100), ← hsplit]
      simp [List.reverse_append]
    · intro hmem
      have := List.mem_takeWhile_imp
        (l := (l.take 100).reverse) (by simpa using hmem)
      simp at this

/-- A run of `n` periods becomes `n / 2` fillers followed by `n % 2`
periods: `re.sub` replaces non-overlapping pairs left to right. -/
theorem dotsub_replicate : ∀ n : Nat,
    dotsub (List.replicate n '.') =
      List.replicate (n / 2) '_' ++ List.replicate (n % 2) '.'
  | 0 => rfl
  | 1 => rfl
  | n + 2 => by
    have ih := dotsub_replicate n
    have hrep : List.replicate (n + 2) '.' = '.' :: '.' :: List.replicate n '.' :=
      rfl
    rw [hrep, dotsub, if_pos ⟨rfl, rfl⟩, ih]
    have h2 : (n + 2) / 2 = n / 2 + 1 := by omega
    have h3 : (n + 2) % 2 = n % 2 := by omega
    rw [h2, h3, List.replicate_succ, List.cons_append]

/-!  ## Lemmas about the materializer  -/

theorem save_of_exists (w : World) (g : GameInfo) (base : String) (fs : FS)
    (hex : FS.existsFile fs (output_filepath_of base g.title) = true) :
    save_game_page_as_markdown w g base fs =
      ⟨true, false, ⟨output_dir_of base g.title :: fs.dirs, fs.files⟩, 0⟩ := by
  have hex1 : FS.existsFile ⟨output_dir_of base g.title :: fs.dirs, fs.files⟩
      (output_filepath_of base g.title) = true := hex
  simp only [save_game_page_as_markdown]
  rw [if_pos hex1]

theorem save_of_fetch_fail (w : World) (g : GameInfo) (base : String) (fs : FS)
    (hex : FS.existsFile fs (output_filepath_of base g.title) = false)
    (hf : w.fetch g.url = none) :
    save_game_page_as_markdown w g base fs =
      ⟨false, true, ⟨output_dir_of base g.title :: fs.dirs, fs.files⟩, 1⟩ := by
  have hex1 : FS.existsFile ⟨output_dir_of base g.title :: fs.dirs, fs.files⟩
      (output_filepath_of base g.title) = false := hex
  simp only [save_game_page_as_markdown]
  rw [if_neg (by simp [hex1]), hf]

theorem save_of_write_ok (w : World) (g : GameInfo) (base : String) (fs : FS)
    (page : Page)
    (hex : FS.existsFile fs (output_filepath_of base g.title) = false)
    (hf : w.fetch g.url = some page) (hw : w.writeOk = true) :
    save_game_page_as_markdown w g base fs =
      ⟨true, true,
        ⟨output_dir_of base g.title :: fs.dirs,
          (output_filepath_of base g.title,
            markdown_content_of w (g.title.getD "Unknown Title") page)
            :: fs.files⟩, 1⟩ := by
  have hex1 : FS.existsFile ⟨output_dir_of base g.title :: fs.dirs, fs.files⟩
      (output_filepath_of base g.title) = false := hex
  simp only [save_game_page_as_markdown]
  rw [if_neg (by simp [hex1]), hf]
  simp only [hw, if_true]

theorem save_of_write_fail_remove_ok (w : World) (g : GameInfo) (base : String)
    (fs : FS) (page : Page)
    (hex : FS.existsFile fs (output_filepath_of base g.title) = false)
    (hf : w.fetch g.url = some page) (hw : w.writeOk = false)
    (hr : w.removeOk = true) :
    save_game_page_as_markdown w g base fs =
      ⟨false, true, ⟨output_dir_of base g.title :: fs.dirs, fs.files⟩, 1⟩ := by
  have hex1 : FS.existsFile ⟨output_dir_of base g.title :: fs.dirs, fs.files⟩
      (output_filepath_of base g.title) = false := hex
  simp only [save_game_page_as_markdown]
  rw [if_neg (by simp [hex1]), hf]
  simp only [hw, Bool.false_eq_true, if_false, hr, if_true]
  rw [List.eraseP_cons_of_pos (by simp)]

theorem save_of_write_fail_remove_fail (w : World) (g : GameInfo)
    (base : String) (fs : FS) (page : Page)
    (hex : FS.existsFile fs (output_filepath_of base g.title) = false)
    (hf : w.fetch g.url = some page) (hw : w.writeOk = false)
    (hr : w.removeOk = false) :
    save_game_page_as_markdown w g base fs =
      ⟨false, true,
        ⟨output_dir_of base g.title :: fs.dirs,
          (output_filepath_of base g.title,
            w.failWrite (markdown_content_of w (g.title.getD "Unknown Title")
              page)) :: fs.files⟩, 1⟩ := by
  have hex1 : FS.existsFile ⟨output_dir_of base g.title :: fs.dirs, fs.files⟩
      (output_filepath_of base g.title) = false := hex
  simp only [save_game_page_as_markdown]
  rw [if_neg (by simp [hex1]), hf]
  simp only [hw, Bool.false_eq_true, if_false, hr]

/-- When the destination does not pre-exist, a request is always made, one
fetch happens, and the only file possibly created is at the destination. -/
theorem save_of_not_exists (w : World) (g : GameInfo) (base : String) (fs : FS)
    (hex : FS.existsFile fs (output_filepath_of base g.title) = false) :
    (save_game_page_as_markdown w g base fs).requestMade = true ∧
    (save_game_page_as_markdown w g base fs).fetchCount = 1 ∧
    (save_game_page_as_markdown w g base fs).fs.dirs =
      output_dir_of base g.title :: fs.dirs ∧
    ((save_game_page_as_markdown w g base fs).fs.files = fs.files ∨
      ∃ c, (save_game_page_as_markdown w g base fs).fs.files =
        (output_filepath_of base g.title, c) :: fs.files) := by
  cases hf : w.fetch g.url with
  | none =>
    rw [save_of_fetch_fail w g base fs hex hf]
    exact ⟨rfl, rfl, rfl, Or.inl rfl⟩
  | some page =>
    cases hw : w.writeOk with
    | true =>
      rw [save_of_write_ok w g base fs page hex hf hw]
      exact ⟨rfl, rfl, rfl, Or.inr ⟨_, rfl⟩⟩
    | false =>
      cases hr : w.removeOk with
      | true =>
        rw [save_of_write_fail_remove_ok w g base fs page hex hf hw hr]
        exact ⟨rfl, rfl, rfl, Or.inl rfl⟩
      | false =>
        rw [save_of_write_fail_remove_fail w g base fs page hex hf hw hr]
        exact ⟨rfl, rfl, rfl, Or.inr ⟨_, rfl⟩⟩

/-!  ## Claims about the sanitizer  -/

/-- C6 (confirmed): for every title — in particular any title containing
`"../../etc/passwd"` — the identifier returned by `sanitize_filename`
contains no `".."` sequence and no `'/'` or `'\\'` character; concretely,
`"../../etc/passwd"` sanitizes to `"__etcpasswd"`. -/
theorem c6_traversal_safety (t : Option String) :
    hasDoubleDot (sanitize_filename t).data = false ∧
    (sanitize_filename t).data.any (fun c => c == '/' || c == '\\') = false ∧
    sanitize_filename (some "../../etc/passwd") = "__etcpasswd" :=
  ⟨sanitize_filename_no_double_dot t, sanitize_filename_no_separator t,
    by decide⟩

/-- C7 counterexample: an input with a run of four consecutive periods
(`"a....b"`) yields `"a__b"` — two filler characters, not the single filler
the claim predicts. -/
theorem c7_dot_run_counterexample :
    sanitize_filename (some "a....b") = "a__b" ∧
    (sanitize_filename (some "a....b")).data.count '_' = 2 := by
  constructor <;> decide

/-- C7 (corrected): the substitution replaces each non-overlapping pair of
consecutive periods, scanned left to right, by one filler: a run of `n`
periods yields `n / 2` fillers followed by `n % 2` periods, so four
consecutive periods yield two fillers (`"a....b"` becomes `"a__b"`). -/
theorem c7_dot_pair_substitution :
    sanitize_filename (some "a....b") = "a__b" ∧
    ∀ n : Nat, dotsub (List.replicate n '.') =
      List.replicate (n / 2) '_' ++ List.replicate (n % 2) '.' :=
  ⟨by decide, dotsub_replicate⟩

/-- C8 (confirmed): every sanitized identifier has at most 100 characters
and is never empty; when the post-strip name exceeds 100 characters the
truncation keeps the first 100 and prefers cutting at the last space among
them, hard-cutting at 100 when no such space exists. -/
theorem c8_sanitize_length_bound (t : Option String) :
    (sanitize_filename t).length ≤ 100 ∧
    sanitize_filename t ≠ "" ∧
    (∀ l : List Char, 100 < l.length → ' ' ∉ l.take 100 →
      truncateName l = l.take 100) ∧
    (∀ l : List Char, 100 < l.length → ' ' ∈ l.take 100 →
      ∃ rest, l.take 100 = truncateName l ++ ' ' :: rest ∧ ' ' ∉ rest) :=
  ⟨sanitize_filename_length_le t, sanitize_filename_ne_empty t,
    truncateName_hard_cut, truncateName_cut_at_space⟩

/-- C8 witness: the bound at a concrete title, a concrete hard cut, and a
concrete cut at the last space. -/
theorem c8_sanitize_length_bound_witness :
    (sanitize_filename (some "Foo")).length ≤ 100 ∧
    truncateName (List.replicate 101 'c') = (List.replicate 101 'c').take 100 ∧
    ∃ rest, ('a' :: ' ' :: List.replicate 100 'c').take 100 =
      truncateName ('a' :: ' ' :: List.replicate 100 'c') ++ ' ' :: rest ∧
      ' ' ∉ rest := by
  obtain ⟨h1, h2, h3, h4⟩ := c8_sanitize_length_bound (some "Foo")
  exact ⟨h1, h3 _ (by decide) (by decide), h4 _ (by decide) (by decide)⟩

/-- C9 counterexample: the empty title and the absent title yield the very
same sentinel, so the two sentinels the claim requires to differ are not
distinct. -/
theorem c9_sentinel_counterexample :
    sanitize_filename (some "") = "_unknown_game_" ∧
    sanitize_filename none = "_unknown_game_" := by
  constructor <;> decide

/-- C9 (corrected): empty and absent titles both map to the single sentinel
`"_unknown_game_"`; a non-empty title that sanitizes to nothing (such as
`"."`) maps to `"_sanitized_empty_"`, which is distinct from the
empty/absent-input sentinel. -/
theorem c9_sentinels_amended :
    sanitize_filename (some "") = "_unknown_game_" ∧
    sanitize_filename none = "_unknown_game_" ∧
    sanitize_filename (some ".") = "_sanitized_empty_" ∧
    ("_sanitized_empty_" : String) ≠ "_unknown_game_" := by
  refine ⟨by decide, by decide, by decide, by decide⟩

/-- C10 (confirmed): leading/trailing periods are trimmed before length
truncation and not afterwards: the input `"ab. "` followed by one hundred
`'c'` characters sanitizes to `"ab."`, an identifier that ends in a
period. -/
theorem c10_trailing_period_after_truncation :
    sanitize_filename (some ("ab. " ++ String.mk (List.replicate 100 'c')))
      = "ab." ∧
    (sanitize_filename
      (some ("ab. " ++ String.mk (List.replicate 100 'c')))).data.getLast?
      = some '.' := by
  constructor <;> decide

/-!  ## Claims about the materializer and the orchestrator  -/

/-- C2 (confirmed): the bucket category computed at filter time in `main`
equals the bucket subdirectory chosen inside `save_game_page_as_markdown`
for the same catalog title: the two derivations are the same function of
the title (and the filter-time skip of empty identifiers never fires,
the sanitizer being non-empty). -/
theorem c2_bucket_consistency (t : Option String) :
    main_filter_category t = some (materialize_target_subdir t) := by
  have h := sanitize_filename_ne_empty (some (t.getD "Unknown Title"))
  simp only [main_filter_category, materialize_target_subdir,
    filename_safe_title_of]
  rw [if_neg h, apply_ite some, apply_ite some]

/-- C1 counterexample: with a fetch capability that always fails and an
initially empty output tree, running materialize twice on the same entry
and output root performs two network fetches in total, and the second call
returns `{succeeded: false, requestMade: true}` — so the unconditional
two-run property of the claim fails. -/
theorem c1_two_run_counterexample :
    (save_game_page_as_markdown fetchFailWorld gAlpha "out" emptyFS).fetchCount
      + (save_game_page_as_markdown fetchFailWorld gAlpha "out"
          (save_game_page_as_markdown fetchFailWorld gAlpha "out"
            emptyFS).fs).fetchCount = 2 ∧
    (save_game_page_as_markdown fetchFailWorld gAlpha "out"
      (save_game_page_as_markdown fetchFailWorld gAlpha "out"
        emptyFS).fs).success = false ∧
    (save_game_page_as_markdown fetchFailWorld gAlpha "out"
      (save_game_page_as_markdown fetchFailWorld gAlpha "out"
        emptyFS).fs).requestMade = true := by
  refine ⟨rfl, rfl, rfl⟩

/-- C1 (corrected): if a file already exists at the computed destination,
materialize returns `{succeeded: true, requestMade: false}` with no fetch
and no file change; and when the destination does not pre-exist and the
first call's fetch and write both succeed, running materialize twice
performs exactly one fetch in total and the second call returns
`{succeeded: true, requestMade: false}`. -/
theorem c1_skip_and_single_fetch (w : World) (g : GameInfo) (base : String)
    (fs : FS) :
    (FS.existsFile fs (output_filepath_of base g.title) = true →
      save_game_page_as_markdown w g base fs =
        ⟨true, false, ⟨output_dir_of base g.title :: fs.dirs, fs.files⟩, 0⟩) ∧
    (FS.existsFile fs (output_filepath_of base g.title) = false →
      w.writeOk = true →
      ∀ page, w.fetch g.url = some page →
        (save_game_page_as_markdown w g base fs).fetchCount +
          (save_game_page_as_markdown w g base
            (save_game_page_as_markdown w g base fs).fs).fetchCount = 1 ∧
        (save_game_page_as_markdown w g base
          (save_game_page_as_markdown w g base fs).fs).success = true ∧
        (save_game_page_as_markdown w g base
          (save_game_page_as_markdown w g base fs).fs).requestMade = false) := by
  refine ⟨save_of_exists w g base fs, ?_⟩
  intro hex hw page hf
  rw [save_of_write_ok w g base fs page hex hf hw]
  dsimp only
  have hex2 : FS.existsFile
      ⟨output_dir_of base g.title :: fs.dirs,
        (output_filepath_of base g.title,
          markdown_content_of w (g.title.getD "Unknown Title") page)
          :: fs.files⟩
      (output_filepath_of base g.title) = true := by
    simp [FS.existsFile]
  rw [save_of_exists w g base _ hex2]
  exact ⟨rfl, rfl, rfl⟩

/-- C1 witness: the amended claim at a concrete world, entry, output root
and filesystem: a skip on a pre-existing file, and a two-run single fetch. -/
theorem c1_skip_and_single_fetch_witness :
    (save_game_page_as_markdown okWorld gBeta "out" betaFS =
      ⟨true, false, ⟨output_dir_of "out" gBeta.title :: betaFS.dirs,
        betaFS.files⟩, 0⟩) ∧
    (save_game_page_as_markdown okWorld gAlpha "out" emptyFS).fetchCount +
      (save_game_page_as_markdown okWorld gAlpha "out"
        (save_game_page_as_markdown okWorld gAlpha "out"
          emptyFS).fs).fetchCount = 1 ∧
    (save_game_page_as_markdown okWorld gAlpha "out"
      (save_game_page_as_markdown okWorld gAlpha "out"
        emptyFS).fs).success = true ∧
    (save_game_page_as_markdown okWorld gAlpha "out"
      (save_game_page_as_markdown okWorld gAlpha "out"
        emptyFS).fs).requestMade = false :=
  ⟨(c1_skip_and_single_fetch okWorld gBeta "out" betaFS).1 (by decide),
    (c1_skip_and_single_fetch okWorld gAlpha "out" emptyFS).2 (by decide) rfl
      helloPage rfl⟩

/-- C3 (confirmed): for every world (any fetch behaviour, any page body)
the only file the materializer may create is at the destination computed
from the output root and the catalog title alone; when the destination
already exists no fetch happens (the existence check precedes the network
request), and at most one fetch ever happens. -/
theorem c3_destination_only_from_title (w : World) (g : GameInfo)
    (base : String) (fs : FS) :
    ((save_game_page_as_markdown w g base fs).fs.files = fs.files ∨
      ∃ c, (save_game_page_as_markdown w g base fs).fs.files =
        (output_filepath_of base g.title, c) :: fs.files) ∧
    (FS.existsFile fs (output_filepath_of base g.title) = true →
      (save_game_page_as_markdown w g base fs).fetchCount = 0) ∧
    (save_game_page_as_markdown w g base fs).fetchCount ≤ 1 := by
  by_cases hex : FS.existsFile fs (output_filepath_of base g.title) = true
  · rw [save_of_exists w g base fs hex]
    exact ⟨Or.inl rfl, fun _ => rfl, Nat.zero_le 1⟩
  · have hex0 : FS.existsFile fs (output_filepath_of base g.title) = false := by
      simpa using hex
    obtain ⟨h1, h2, h3, h4⟩ := save_of_not_exists w g base fs hex0
    refine ⟨h4, fun hcon => absurd hcon hex, ?_⟩
    rw [h2]

/-- C3 witness: at a concrete pre-existing destination the fetch count is
zero, and at a concrete fresh destination only the destination file is
added. -/
theorem c3_destination_only_from_title_witness :
    (save_game_page_as_markdown okWorld gBeta "out" betaFS).fetchCount = 0 ∧
    ((save_game_page_as_markdown writeFailNoRemoveWorld gAlpha "out"
        emptyFS).fs.files = emptyFS.files ∨
      ∃ c, (save_game_page_as_markdown writeFailNoRemoveWorld gAlpha "out"
        emptyFS).fs.files =
          (output_filepath_of "out" gAlpha.title, c) :: emptyFS.files) :=
  ⟨(c3_destination_only_from_title okWorld gBeta "out" betaFS).2.1 (by decide),
    (c3_destination_only_from_title writeFailNoRemoveWorld gAlpha "out"
      emptyFS).1⟩

/-- C5 (confirmed): when the destination does not pre-exist, a fetch
failure returns `{succeeded: false, requestMade: true}` and creates no
file; a write failure returns `{succeeded: false, requestMade: true}`,
removes the just-created file when removal succeeds, and leaves it behind
when the best-effort removal itself fails. -/
theorem c5_failure_atomicity (w : World) (g : GameInfo) (base : String)
    (fs : FS)
    (hex : FS.existsFile fs (output_filepath_of base g.title) = false) :
    (w.fetch g.url = none →
      save_game_page_as_markdown w g base fs =
        ⟨false, true, ⟨output_dir_of base g.title :: fs.dirs, fs.files⟩, 1⟩) ∧
    (∀ page, w.fetch g.url = some page → w.writeOk = false →
      (save_game_page_as_markdown w g base fs).success = false ∧
      (save_game_page_as_markdown w g base fs).requestMade = true ∧
      (w.removeOk = true →
        (save_game_page_as_markdown w g base fs).fs.files = fs.files) ∧
      (w.removeOk = false →
        (save_game_page_as_markdown w g base fs).fs.files =
          (output_filepath_of base g.title,
            w.failWrite (markdown_content_of w (g.title.getD "Unknown Title")
              page)) :: fs.files)) := by
  refine ⟨fun hf => save_of_fetch_fail w g base fs hex hf, ?_⟩
  intro page hf hw
  cases hr : w.removeOk with
  | true =>
    rw [save_of_write_fail_remove_ok w g base fs page hex hf hw hr]
    exact ⟨rfl, rfl, fun _ => rfl,
      fun hcon => Bool.noConfusion hcon⟩
  | false =>
    rw [save_of_write_fail_remove_fail w g base fs page hex hf hw hr]
    exact ⟨rfl, rfl,
      fun hcon => Bool.noConfusion hcon,
      fun _ => rfl⟩

theorem mainLoop_nil (w : World) (base : String) (total i : Nat)
    (st : RunState) : mainLoop w base total i [] st = st := rfl

theorem mainLoop_cons (w : World) (base : String) (total i : Nat)
    (g : GameInfo) (rest : List GameInfo) (st : RunState) :
    mainLoop w base total i (g :: rest) st =
      mainLoop w base total (i + 1) rest
        ⟨if (save_game_page_as_markdown w g base st.fs).success then
            st.processed_count + 1 else st.processed_count,
          if (save_game_page_as_markdown w g base st.fs).success then
            st.error_count else st.error_count + 1,
          if (save_game_page_as_markdown w g base st.fs).requestMade ∧
              i < total - 1 then st.sleep_after ++ [i] else st.sleep_after,
          st.fetchCount + (save_game_page_as_markdown w g base st.fs).fetchCount,
          (save_game_page_as_markdown w g base st.fs).fs⟩ := rfl

/-- C4 counterexample: in the three-entry scenario of the claim — entry 2's
destination pre-exists, entries 1 and 3 each make a request — the delay is
invoked exactly once (after entry 1), not twice: entry 3 is the final entry
and the loop never sleeps after the final entry. -/
theorem c4_sleep_counterexample :
    (mainLoop okWorld "out" 3 0 [gAlpha, gBeta, gGamma]
      ⟨0, 0, [], 0, betaFS⟩).sleep_after = [0] ∧
    ((mainLoop okWorld "out" 3 0 [gAlpha, gBeta, gGamma]
      ⟨0, 0, [], 0, betaFS⟩).sleep_after).length = 1 := by
  constructor <;> rfl

/-- C4 (corrected): in a 3-entry run where entry 2's destination pre-exists
and the destinations of entries 1 and 3 are absent and distinct from one
another, the delay is invoked exactly once — after entry 1 — never after
entry 2 (its call makes no request) and never after entry 3 (the final
entry of the run). -/
theorem c4_single_sleep (w : World) (base : String) (e1 e2 e3 : GameInfo)
    (fs0 : FS)
    (h1 : FS.existsFile fs0 (output_filepath_of base e1.title) = false)
    (h2 : FS.existsFile fs0 (output_filepath_of base e2.title) = true)
    (h3 : FS.existsFile fs0 (output_filepath_of base e3.title) = false)
    (h13 : output_filepath_of base e1.title ≠
      output_filepath_of base e3.title) :
    (mainLoop w base 3 0 [e1, e2, e3] ⟨0, 0, [], 0, fs0⟩).sleep_after
      = [0] ∧
    (save_game_page_as_markdown w e1 base fs0).requestMade = true ∧
    (save_game_page_as_markdown w e2 base
      (save_game_page_as_markdown w e1 base fs0).fs).requestMade = false ∧
    (save_game_page_as_markdown w e3 base
      (save_game_page_as_markdown w e2 base
        (save_game_page_as_markdown w e1 base fs0).fs).fs).requestMade
      = true := by
  obtain ⟨r1, f1, d1, files1⟩ := save_of_not_exists w e1 base fs0 h1
  have hex2 : FS.existsFile (save_game_page_as_markdown w e1 base fs0).fs
      (output_filepath_of base e2.title) = true := by
    rcases files1 with hfe | ⟨c, hfe⟩
    · simp only [FS.existsFile] at h2 ⊢
      rw [hfe]
      exact h2
    · simp only [FS.existsFile] at h2 ⊢
      rw [hfe, List.any_cons]
      simp [h2]
  have hsave2 := save_of_exists w e2 base _ hex2
  have hex3 : FS.existsFile
      (save_game_page_as_markdown w e2 base
        (save_game_page_as_markdown w e1 base fs0).fs).fs
      (output_filepath_of base e3.title) = false := by
    rw [hsave2]
    rcases files1 with hfe | ⟨c, hfe⟩
    · simp only [FS.existsFile] at h3 ⊢
      rw [hfe]
      exact h3
    · simp only [FS.existsFile] at h3 ⊢
      rw [hfe, List.any_cons]
      simp [beq_eq_false_iff_ne.mpr h13, h3]
  obtain ⟨r3, f3, d3, files3⟩ := save_of_not_exists w e3 base _ hex3
  refine ⟨?_, r1, by rw [hsave2], r3⟩
  rw [mainLoop_cons]
  dsimp only
  rw [if_pos (⟨r1, by omega⟩ :
    (save_game_page_as_markdown w e1 base fs0).requestMade = true ∧
      (0 : Nat) < 3 - 1)]
  rw [mainLoop_cons]
  dsimp only
  rw [hsave2]
  dsimp only
  rw [if_neg (fun hcon => Bool.noConfusion hcon.1 :
    ¬((false : Bool) = true ∧ 0 + 1 < 3 - 1))]
  rw [mainLoop_cons]
  dsimp only
  rw [if_neg (fun hcon => absurd hcon.2 (by omega) :
    ¬((save_game_page_as_markdown w e3 base
        ⟨output_dir_of base e2.title ::
            (save_game_page_as_markdown w e1 base fs0).fs.dirs,
          (save_game_page_as_markdown w e1 base fs0).fs.files⟩).requestMade
        = true ∧ 0 + 1 + 1 < 3 - 1))]
  rw [mainLoop_nil]
  rfl

/-- C4 witness: the amended single-sleep property at a concrete world and
concrete entries. -/
theorem c4_single_sleep_witness :
    (mainLoop writeFailWorld "out" 3 0 [gAlpha, gBeta, gGamma]
      ⟨0, 0, [], 0, betaFS⟩).sleep_after = [0] :=
  (c4_single_sleep writeFailWorld "out" gAlpha gBeta gGamma betaFS
    (by decide) (by decide) (by decide) (by decide)).1

/-- C5 witness: a concrete failed fetch leaves the file set unchanged, and
a concrete failed write with successful cleanup leaves the file set
unchanged as well. -/
theorem c5_failure_atomicity_witness :
    (save_game_page_as_markdown fetchFailWorld gAlpha "out" emptyFS =
      ⟨false, true, ⟨output_dir_of "out" gAlpha.title :: emptyFS.dirs,
        emptyFS.files⟩, 1⟩) ∧
    (save_game_page_as_markdown writeFailWorld gAlpha "out"
      emptyFS).fs.files = emptyFS.files :=
  ⟨(c5_failure_atomicity fetchFailWorld gAlpha "out" emptyFS (by decide)).1 rfl,
    ((c5_failure_atomicity writeFailWorld gAlpha "out" emptyFS
      (by decide)).2 helloPage rfl rfl).2.2.1 rfl⟩

end Scraper
